import Mathlib

/-!
Verification of the core of `spark-submit-server`: a shallow embedding of the
`spark` package (preset registry construction, submit/control argument
builders, the retrying submitter) and of the HTTP submit handler, with
theorems checking the natural-language specification against this code.

Sources embedded (file and line references are to the repository):
* `pkg/spark/spark.go` (revision with the retry loop, also packed as
  `unnamed/part_003`): `New`, `submitArgs`, `Submit`, `buildArgs`, `Kill`,
  `Status`, `retry`.
* `pkg/handlers/handlers.go`: `HandleSubmit`.
* `pkg/httputil/httputil.go`: the error-to-response mapping done by `Wrap`.

External effects (filesystem, child processes) are passed in explicitly:
the filesystem seen by `New` is a `FileSystem` value, a child-process run is
a function from the argument list to a `ProcOutcome`, and the dispatch of a
child process (directly on the calling goroutine versus via `go`) is recorded
in an `Invocation` value instead of being performed.
-/

namespace SparkSubmit

/-- Go error values as used by this program: `fmt.Errorf` without `%w`
produces a leaf error, `fmt.Errorf` with a message and `%w` produces a
wrapping error. -/
inductive GoError where
  | base : String → GoError
  | wrap : String → GoError → GoError
deriving DecidableEq, Repr

/-- Go `errors.Is(err, target)`: compare with the target, unwrapping one
layer at a time (`pkg/handlers/handlers.go` uses it against the sentinel
`spark.PresetNotFoundError`). -/
def errorIs : GoError → GoError → Bool
  | GoError.base m, target => GoError.base m == target
  | GoError.wrap m inner, target => GoError.wrap m inner == target || errorIs inner target

/-- Sentinel from `spark.go`: `var PresetNotFoundError error = fmt.Errorf("preset not found")`. -/
def PresetNotFoundError : GoError := GoError.base "preset not found"

/-- Terminal error of the retry loop, `spark.go`: `fmt.Errorf("retries exceeded")`. -/
def retriesExceeded : GoError := GoError.base "retries exceeded"

/-- `configurationPreset` from `spark.go`. The Go `SparkConf` field is a
`map[string]string`; it is embedded as an association list holding the map's
entries in the (arbitrary) order a run of the program iterates them, with
keys unique. -/
structure configurationPreset where
  main : String
  args : List String
  sparkConf : List (String × String)
deriving DecidableEq, Repr

/-- `Spark` from `spark.go`. The `presets` map is embedded as an association
list with unique keys. -/
structure Spark where
  presets : List (String × configurationPreset)
  binaryPath : String
  master : String
  debug : Bool
deriving DecidableEq, Repr

/-- Go map lookup `s.presets[presetName]` on the association-list embedding. -/
def lookupPreset : List (String × configurationPreset) → String → Option configurationPreset
  | [], _ => none
  | (k, v) :: rest, name => if k = name then some v else lookupPreset rest name

/-- One `--conf=<key>=<value>` token, from the loop body of `submitArgs`
(`spark.go`): `fmt.Sprintf("--conf=%s=%s", key, value)`. -/
def confToken (kv : String × String) : String :=
  "--conf=" ++ kv.1 ++ "=" ++ kv.2

/-- The token list built by `submitArgs` (`spark.go` lines 111-119) for a
resolved preset: the successive `append`s produce the master, deploy-mode and
name tokens, one `--conf` token per `SparkConf` entry in iteration order,
then the main target, then the extra arguments. -/
def submitTokens (master presetName : String) (preset : configurationPreset) : List String :=
  ["--master=" ++ master, "--deploy-mode=cluster", "--name=" ++ presetName]
    ++ preset.sparkConf.map confToken ++ preset.main :: preset.args

/-- `submitArgs` (`spark.go` lines 106-121): look the preset up, return the
sentinel `PresetNotFoundError` when it is absent, otherwise the token list. -/
def submitArgs (s : Spark) (presetName : String) : Except GoError (List String) :=
  match lookupPreset s.presets presetName with
  | none => Except.error PresetNotFoundError
  | some preset => Except.ok (submitTokens s.master presetName preset)

/-- `buildArgs` (`spark.go` lines 163-168): the control argument list
`--master=<master>`, `--<kind>=<namespace>:<name>`. -/
def buildArgs (s : Spark) (kind ns name : String) : List String :=
  ["--master=" ++ s.master, "--" ++ kind ++ "=" ++ ns ++ ":" ++ name]

/-- Observable outcome of one run of `retry` (`spark.go` lines 200-218): the
returned error (`none` is Go `nil`), the number of times the attempt function
was invoked, and the argument of each `time.Sleep` call in order. Durations
are in nanoseconds (Go `time.Duration`), embedded as `Nat`. -/
structure RetryTrace where
  result : Option GoError
  calls : Nat
  sleeps : List Nat
deriving DecidableEq, Repr

/-- Delay update from the tail of the retry loop body (`spark.go` lines
213-216): `delay = delay * mult; if delay >= maxWait { delay = maxWait }`. -/
def nextDelay (delay mult maxWait : Nat) : Nat :=
  if delay * mult ≥ maxWait then maxWait else delay * mult

/-- The `for try := 0; try < retries; try++` loop of `retry` (`spark.go`
lines 202-217), by recursion on the remaining iterations. The impure Go
closure `fn func() error` is embedded as a function from the invocation
index to its returned error; `fn try = none` is a `nil` return. On a failed
attempt the loop sleeps for the current delay (also after the last failed
attempt, since the `time.Sleep` precedes the loop condition re-check), then
continues with the updated delay. -/
def retryLoop (fn : Nat → Option GoError) (mult maxWait : Nat) :
    Nat → Nat → Nat → RetryTrace
  | 0, _, _ => { result := some retriesExceeded, calls := 0, sleeps := [] }
  | Nat.succ remaining, tryIdx, delay =>
    match fn tryIdx with
    | none => { result := none, calls := 1, sleeps := [] }
    | some _ =>
      let rest := retryLoop fn mult maxWait remaining (tryIdx + 1) (nextDelay delay mult maxWait)
      { result := rest.result, calls := rest.calls + 1, sleeps := delay :: rest.sleeps }

/-- `retry(retries, initialDelay, mult, maxWait, fn)` from `spark.go` lines
200-219, instrumented with the invocation count and the sleep sequence. -/
def retry (retries initialDelay mult maxWait : Nat) (fn : Nat → Option GoError) : RetryTrace :=
  retryLoop fn mult maxWait retries 0 initialDelay

/-- Whether a child-process invocation is run on the calling goroutine
(`cmd.Run()` directly) or dispatched with the `go` keyword. -/
inductive DispatchMode where
  | sync : DispatchMode
  | async : DispatchMode
deriving DecidableEq, Repr

/-- The retry parameters `Submit` hard-codes around `cmd.Run()`
(`spark.go` line 150): `retry(10, 1*time.Second, 2, 5*time.Minute, ...)`. -/
structure RetryPolicy where
  retries : Nat
  initialDelay : Nat
  mult : Nat
  maxWait : Nat
deriving DecidableEq, Repr

/-- One launcher-binary invocation as dispatched by the facade: its dispatch
mode, its argument list, and the retry policy wrapped around it (`none` for
a single-shot invocation). -/
structure Invocation where
  mode : DispatchMode
  args : List String
  retryPolicy : Option RetryPolicy
deriving DecidableEq, Repr

/-- One second in nanoseconds (Go `time.Second`). -/
def second : Nat := 1000000000

/-- One minute in nanoseconds (Go `time.Minute`). -/
def minute : Nat := 60 * second

/-- `Submit` (`spark.go` lines 133-161): build the argument list; on failure
return the wrapping error `fmt.Errorf("couldn't build submit args, %w", err)`;
otherwise spawn (with `go`) the retry loop `retry(10, 1*time.Second, 2,
5*time.Minute, ...)` around `cmd.Run()` and return `nil`. The returned value
is fixed before the spawned child process runs, so the spawned work is
described by the returned `Invocation` rather than executed. -/
def Submit (s : Spark) (presetName : String) : Except GoError Invocation :=
  match submitArgs s presetName with
  | Except.error err => Except.error (GoError.wrap "couldn't build submit args" err)
  | Except.ok args =>
    Except.ok { mode := DispatchMode.async, args := args,
                retryPolicy := some { retries := 10, initialDelay := second,
                                      mult := 2, maxWait := 5 * minute } }

/-- `Kill` (`spark.go` lines 170-184): build the kill arguments and run
`cmd.Run()` on the calling goroutine, ignoring its error beyond logging.
The single synchronous invocation it performs is returned as a value. -/
def Kill (s : Spark) (ns name : String) : Invocation :=
  { mode := DispatchMode.sync, args := buildArgs s "kill" ns name, retryPolicy := none }

/-- Result of running the launcher binary as a child process: the combined
standard output and standard error captured into the one shared buffer, and
the error from `cmd.Run()` (`none` when the process started and exited
successfully). -/
structure ProcOutcome where
  combinedOutput : String
  exitError : Option GoError
deriving DecidableEq, Repr

/-- `Status` (`spark.go` lines 186-198): build the status arguments, run the
child with stdout and stderr captured into one buffer (the run is the
external behavior, passed in as `run`), log—but otherwise ignore—the error
from `cmd.Run()`, and return `buffer.String()`. -/
def Status (s : Spark) (ns name : String) (run : List String → ProcOutcome) : String :=
  (run (buildArgs s "status" ns name)).combinedOutput

/-- HTTP response produced through `httputil.Wrap`: the status code and the
`error` field of the JSON body (empty when the handler returned `nil`). -/
structure Response where
  status : Nat
  body : String
deriving DecidableEq, Repr

/-- `HandleSubmit` (`pkg/handlers/handlers.go` lines 26-44) combined with the
error rendering of `httputil.Wrap`: a missing `preset` query parameter (Go's
`Query().Get` returns `""`) is a 400, a `Submit` error satisfying
`errors.Is(err, PresetNotFoundError)` is a 404 with body `preset not found`,
any other `Submit` error is a 500 with body `error when submitting spark
app`, and success is an empty 200. -/
def HandleSubmit (s : Spark) (preset : String) : Response :=
  if preset = "" then { status := 400, body := "missing parameter preset" }
  else
    match Submit s preset with
    | Except.error err =>
      if errorIs err PresetNotFoundError then { status := 404, body := "preset not found" }
      else { status := 500, body := "error when submitting spark app" }
    | Except.ok _ => { status := 200, body := "" }

/-- What `New`'s directory scan can observe about one directory entry: the
outcome of `os.ReadFile` and `yaml.Unmarshal` on it (irrelevant and unused
for directories and for names without the `.yaml` suffix, which are skipped
before reading). -/
inductive FileResult where
  | unreadable : FileResult
  | unparsable : FileResult
  | parsed : configurationPreset → FileResult
deriving DecidableEq, Repr

/-- One entry of the preset directory as seen by `New`: its name, whether it
is a directory, and the read/parse outcome of its contents. -/
structure ScanEntry where
  name : String
  isDir : Bool
  contents : FileResult
deriving DecidableEq, Repr

/-- `strings.TrimSuffix(fn, ".yaml")`. -/
def trimYamlSuffix (fn : String) : String :=
  if fn.endsWith ".yaml" then fn.dropRight 5 else fn

/-- Go map assignment `spark.presets[presetName] = preset` on the
association-list embedding: replace the binding when the key is present
(later files win), append otherwise. -/
def insertPreset (m : List (String × configurationPreset)) (k : String)
    (v : configurationPreset) : List (String × configurationPreset) :=
  match m with
  | [] => [(k, v)]
  | (k', v') :: rest => if k' = k then (k, v) :: rest else (k', v') :: insertPreset rest k v

/-- Body of the scan loop of `New` (`spark.go` lines 67-94): skip
directories, skip names without the `.yaml` suffix, skip unreadable and
unparsable files, and register the parsed preset under the trimmed name. -/
def scanStep (acc : List (String × configurationPreset)) (file : ScanEntry) :
    List (String × configurationPreset) :=
  if file.isDir then acc
  else if ¬ file.name.endsWith ".yaml" then acc
  else
    match file.contents with
    | FileResult.unreadable => acc
    | FileResult.unparsable => acc
    | FileResult.parsed p => insertPreset acc (trimYamlSuffix file.name) p

/-- The whole scan loop of `New` over the directory listing. -/
def scanPresets (files : List ScanEntry) : List (String × configurationPreset) :=
  files.foldl scanStep []

/-- Whether a directory entry causes a preset to be registered: a regular
file whose name has the `.yaml` suffix, readable and parsable. -/
def registersPreset (file : ScanEntry) : Bool :=
  !file.isDir && file.name.endsWith ".yaml" &&
    (match file.contents with
     | FileResult.parsed _ => true
     | _ => false)

/-- The filesystem state `New` consults: whether the spark home and the
preset directory exist (`os.Stat` + `os.IsNotExist`), and the result of
`os.ReadDir` on the preset directory. -/
structure FileSystem where
  sparkHomeExists : Bool
  confDirExists : Bool
  dirListing : Except GoError (List ScanEntry)

/-- `New` (`spark.go` lines 46-102): fail when the spark home directory does
not exist (with the source's verbatim, type-challenged message), record the
launcher path, fail when the preset directory does not exist, fail when it
cannot be enumerated, scan it, fail when zero presets were registered, and
otherwise return the populated `Spark` value. `filepath.Join` is modelled as
string concatenation. -/
def New (sparkHome sparkConfDir master : String) (debug : Bool) (fs : FileSystem) :
    Except GoError Spark :=
  if fs.sparkHomeExists = false then
    Except.error (GoError.base ("directory for spark home found (\"" ++ sparkHome ++ "\")"))
  else if fs.confDirExists = false then
    Except.error (GoError.base
      ("directory for spark configuration presets not found (\"" ++ sparkConfDir ++ "\")"))
  else
    match fs.dirListing with
    | Except.error e =>
      Except.error (GoError.wrap
        ("error reading preset directory (\"" ++ sparkConfDir ++ "\")") e)
    | Except.ok files =>
      let presets := scanPresets files
      if presets.isEmpty then
        Except.error (GoError.base
          ("no presets found, please add some presets to the spark configuration preset directory: \""
            ++ sparkConfDir ++ "\""))
      else
        Except.ok { presets := presets, binaryPath := sparkHome ++ "/bin/spark-submit",
                    master := master, debug := debug }

/-- Concrete preset mirroring the `mypreset` fixture of `spark_test.go`. -/
def pTest : configurationPreset :=
  { main := "/app/example.py", args := ["--verbose=true"],
    sparkConf := [("spark.kubernetes.namespace", "spark")] }

/-- Concrete registry state mirroring the fixture of `spark_test.go`. -/
def sTest : Spark :=
  { presets := [("mypreset", pTest)], binaryPath := "./bin/spark-submit",
    master := "k8s://http://localhost:8000", debug := false }

/-- C8: for every master address, namespace and name, the control-argument
builder with verb `status` returns exactly the two-element list
`[--master=<master>, --status=<namespace>:<name>]`, and with verb `kill`
exactly `[--master=<master>, --kill=<namespace>:<name>]`; being a plain
function into `List String`, it is total with no error path. -/
theorem buildArgs_control (s : Spark) (ns name : String) :
    buildArgs s "status" ns name
      = ["--master=" ++ s.master, "--status=" ++ ns ++ ":" ++ name]
    ∧ buildArgs s "kill" ns name
      = ["--master=" ++ s.master, "--kill=" ++ ns ++ ":" ++ name] :=
  ⟨rfl, rfl⟩

/-- C5: for every namespace and name, `Status` returns the child process's
captured combined output verbatim as its result string, for every possible
child behavior—including an empty capture and a failed run—and its return
type `String` carries no error to the caller. -/
theorem status_returns_captured_output (s : Spark) (ns name : String)
    (run : List String → ProcOutcome) :
    Status s ns name run = (run (buildArgs s "status" ns name)).combinedOutput
    ∧ (∀ out : String, ∀ e : Option GoError,
        Status s ns name (fun _ => { combinedOutput := out, exitError := e }) = out) :=
  ⟨rfl, fun _ _ => rfl⟩

/-- C6 counterexample: on the concrete registry `sTest` with namespace `ns`
and name `job`, `Kill` runs its single invocation synchronously on the
calling goroutine (`spark.go` lines 170-184 call `cmd.Run()` directly), so
the claimed asynchronous dispatch is false at this input. -/
theorem kill_async_counterexample :
    ¬ (Kill sTest "ns" "job").mode = DispatchMode.async := by
  decide

/-- C6 amended: `Kill` performs a single launcher invocation with no retry,
and dispatches it synchronously: the call runs the child on the calling
goroutine and does not return until the child exits. -/
theorem kill_single_sync (s : Spark) (ns name : String) :
    Kill s ns name
      = { mode := DispatchMode.sync,
          args := ["--master=" ++ s.master, "--kill=" ++ ns ++ ":" ++ name],
          retryPolicy := none } :=
  rfl

/-- C2: for a registered preset, building the submit arguments is total, the
first three tokens are `--master=<master>`, `--deploy-mode=cluster`,
`--name=<presetName>` in that order, the following tokens are exactly one
`--conf=<key>=<value>` token per `sparkConf` entry (one token per entry, and
stable as a multiset under any reordering of the map's iteration order),
then the preset's `mainTarget`, then its `extraArgs` in stored order. -/
theorem submitArgs_structure (s : Spark) (presetName : String) (preset : configurationPreset)
    (h : lookupPreset s.presets presetName = some preset) :
    submitArgs s presetName = Except.ok (submitTokens s.master presetName preset)
    ∧ (submitTokens s.master presetName preset).take 3
        = ["--master=" ++ s.master, "--deploy-mode=cluster", "--name=" ++ presetName]
    ∧ (submitTokens s.master presetName preset).drop 3
        = preset.sparkConf.map confToken ++ preset.main :: preset.args
    ∧ (preset.sparkConf.map confToken).length = preset.sparkConf.length
    ∧ ∀ conf₂ : List (String × String), conf₂.Perm preset.sparkConf →
        (submitTokens s.master presetName
            { main := preset.main, args := preset.args, sparkConf := conf₂ }).Perm
          (submitTokens s.master presetName preset) := by
  refine ⟨by simp [submitArgs, h], rfl, rfl, List.length_map _ _, ?_⟩
  intro conf₂ hp
  simp only [submitTokens, List.append_assoc]
  exact List.Perm.append_left _ ((hp.map confToken).append_right _)

/-- C2 witness: on the `spark_test.go` fixture, the preset is registered and
the built token list is the test's expected list. -/
theorem submitArgs_structure_witness :
    lookupPreset sTest.presets "mypreset" = some pTest
    ∧ submitArgs sTest "mypreset"
        = Except.ok ["--master=k8s://http://localhost:8000", "--deploy-mode=cluster",
            "--name=mypreset", "--conf=spark.kubernetes.namespace=spark",
            "/app/example.py", "--verbose=true"] := by
  refine ⟨rfl, ?_⟩
  rw [(submitArgs_structure sTest "mypreset" pTest rfl).1]
  rfl

theorem retryLoop_calls_le (fn : Nat → Option GoError) (mult maxWait : Nat) :
    ∀ r tryIdx delay : Nat, (retryLoop fn mult maxWait r tryIdx delay).calls ≤ r := by
  intro r
  induction r with
  | zero => intro t d; simp [retryLoop]
  | succ n ih =>
    intro t d
    cases hft : fn t with
    | none => simp [retryLoop, hft]
    | some e =>
      simpa [retryLoop, hft] using ih (t + 1) (nextDelay d mult maxWait)

theorem retryLoop_all_fail (fn : Nat → Option GoError) (mult maxWait : Nat) :
    ∀ r tryIdx delay : Nat, (∀ j, j < r → fn (tryIdx + j) ≠ none) →
      (retryLoop fn mult maxWait r tryIdx delay).result = some retriesExceeded
      ∧ (retryLoop fn mult maxWait r tryIdx delay).calls = r := by
  intro r
  induction r with
  | zero => intro t d _; exact ⟨rfl, rfl⟩
  | succ n ih =>
    intro t d hfail
    have h0 : fn t ≠ none := by simpa using hfail 0 (Nat.succ_pos n)
    cases hft : fn t with
    | none => exact absurd hft h0
    | some e =>
      have ihr := ih (t + 1) (nextDelay d mult maxWait) (fun j hj => by
        have he : t + 1 + j = t + (j + 1) := by omega
        rw [he]; exact hfail (j + 1) (by omega))
      constructor
      · simpa [retryLoop, hft] using ihr.1
      · simp [retryLoop, hft, ihr.2]

theorem retryLoop_first_success (fn : Nat → Option GoError) (mult maxWait : Nat) :
    ∀ r tryIdx delay k : Nat, k < r → fn (tryIdx + k) = none →
      (∀ j, j < k → fn (tryIdx + j) ≠ none) →
      (retryLoop fn mult maxWait r tryIdx delay).result = none
      ∧ (retryLoop fn mult maxWait r tryIdx delay).calls = k + 1 := by
  intro r
  induction r with
  | zero => intro t d k hk _ _; exact absurd hk (Nat.not_lt_zero k)
  | succ n ih =>
    intro t d k hk hsucc hfail
    cases k with
    | zero =>
      have h : fn t = none := by simpa using hsucc
      simp [retryLoop, h]
    | succ m =>
      have h0 : fn t ≠ none := by simpa using hfail 0 (Nat.succ_pos m)
      cases hft : fn t with
      | none => exact absurd hft h0
      | some e =>
        have ihr := ih (t + 1) (nextDelay d mult maxWait) m (by omega)
          (by
            have he : t + 1 + m = t + (m + 1) := by omega
            rw [he]; exact hsucc)
          (fun j hj => by
            have he : t + 1 + j = t + (j + 1) := by omega
            rw [he]; exact hfail (j + 1) (by omega))
        constructor
        · simpa [retryLoop, hft] using ihr.1
        · simp [retryLoop, hft, ihr.2]

/-- C1: for every attempt function and `maxAttempts`, the retry loop invokes
the attempt function at most `maxAttempts` times; when the `(k+1)`-st
invocation (0-based index `k`) is the first to return no error it returns
success after exactly `k+1` invocations; and when every invocation fails it
returns the terminal `retries exceeded` error after exactly `maxAttempts`
invocations, never retrying indefinitely. -/
theorem retry_attempt_semantics (fn : Nat → Option GoError)
    (retries initialDelay mult maxWait : Nat) (_hN : 1 ≤ retries) :
    (retry retries initialDelay mult maxWait fn).calls ≤ retries
    ∧ (∀ k, k < retries → fn k = none → (∀ j, j < k → fn j ≠ none) →
        (retry retries initialDelay mult maxWait fn).result = none
        ∧ (retry retries initialDelay mult maxWait fn).calls = k + 1)
    ∧ ((∀ j, j < retries → fn j ≠ none) →
        (retry retries initialDelay mult maxWait fn).result = some retriesExceeded
        ∧ (retry retries initialDelay mult maxWait fn).calls = retries) := by
  refine ⟨retryLoop_calls_le fn mult maxWait retries 0 initialDelay, ?_, ?_⟩
  · intro k hk hsucc hfail
    exact retryLoop_first_success fn mult maxWait retries 0 initialDelay k hk
      (by simpa using hsucc) (fun j hj => by simpa using hfail j hj)
  · intro hfail
    exact retryLoop_all_fail fn mult maxWait retries 0 initialDelay
      (fun j hj => by simpa using hfail j hj)

/-- Attempt function of the spec's example: fails on its first two
invocations, then succeeds. -/
def exampleAttemptFn : Nat → Option GoError :=
  fun j => if j < 2 then some (GoError.base "error in fn") else none

/-- C1 witness: with the fail-twice-then-succeed attempt function and
`maxAttempts = 3`, the loop returns success and invoked the function exactly
3 times. -/
theorem retry_attempt_semantics_witness :
    (retry 3 second 2 (5 * minute) exampleAttemptFn).result = none
    ∧ (retry 3 second 2 (5 * minute) exampleAttemptFn).calls = 3 :=
  (retry_attempt_semantics exampleAttemptFn 3 second 2 (5 * minute) (by decide)).2.1 2
    (by decide) (by decide) (by decide)

/-- Backoff delay sequence as the spec states it ("a delay starting at
`initialDelay`, multiplied by `backoffMultiplier` after every failed
attempt, capped at `maxDelay`"): the first sleep is `initialDelay` itself,
and the `k`-th sleep for `k ≥ 1` is `initialDelay * mult^k` capped at
`maxWait`. Used to compare the code's sleep sequence with the spec's rule. -/
def specBackoffDelay (initialDelay mult maxWait k : Nat) : Nat :=
  if k = 0 then initialDelay else min (initialDelay * mult ^ k) maxWait

theorem nextDelay_eq_min (d mult maxWait : Nat) :
    nextDelay d mult maxWait = min (d * mult) maxWait := by
  unfold nextDelay
  by_cases hc : d * mult ≥ maxWait
  · rw [if_pos hc]; exact (Nat.min_eq_right hc).symm
  · rw [if_neg hc]
    exact (Nat.min_eq_left (Nat.le_of_lt (Nat.not_le.mp hc))).symm

theorem iterate_nextDelay (mult maxWait : Nat) (hm : 1 ≤ mult) (i : Nat) :
    ∀ k, (fun d => nextDelay d mult maxWait)^[k] i = specBackoffDelay i mult maxWait k := by
  intro k
  induction k with
  | zero => simp [specBackoffDelay]
  | succ m ih =>
    rw [Function.iterate_succ_apply', ih]
    cases m with
    | zero =>
      simp [specBackoffDelay, nextDelay_eq_min, pow_one]
    | succ p =>
      simp only [specBackoffDelay, if_neg (Nat.succ_ne_zero p), nextDelay_eq_min,
        if_neg (Nat.succ_ne_zero (p + 1))]
      rcases Nat.le_total (i * mult ^ (p + 1)) maxWait with h | h
      · rw [Nat.min_eq_left h]
        have he : i * mult ^ (p + 1) * mult = i * mult ^ (p + 1 + 1) := by ring
        rw [he]
      · rw [Nat.min_eq_right h]
        have h1 : maxWait ≤ maxWait * mult := Nat.le_mul_of_pos_right _ (by omega)
        rw [Nat.min_eq_right h1]
        have h2 : maxWait ≤ i * mult ^ (p + 1 + 1) := by
          calc maxWait ≤ i * mult ^ (p + 1) := h
            _ ≤ i * mult ^ (p + 1 + 1) :=
              Nat.mul_le_mul_left _ (Nat.pow_le_pow_right hm (by omega))
        rw [Nat.min_eq_right h2]

theorem retryLoop_all_fail_sleeps (fn : Nat → Option GoError) (mult maxWait : Nat) :
    ∀ r tryIdx delay : Nat, (∀ j, j < r → fn (tryIdx + j) ≠ none) →
      (retryLoop fn mult maxWait r tryIdx delay).sleeps
        = (List.range r).map (fun k => (fun d => nextDelay d mult maxWait)^[k] delay) := by
  intro r
  induction r with
  | zero => intro t d _; simp [retryLoop]
  | succ n ih =>
    intro t d hfail
    have h0 : fn t ≠ none := by simpa using hfail 0 (Nat.succ_pos n)
    cases hft : fn t with
    | none => exact absurd hft h0
    | some e =>
      have ihr := ih (t + 1) (nextDelay d mult maxWait) (fun j hj => by
        have he : t + 1 + j = t + (j + 1) := by omega
        rw [he]; exact hfail (j + 1) (by omega))
      simp only [retryLoop, hft]
      rw [ihr, List.range_succ_eq_map, List.map_cons, List.map_map]
      have hmap : ((fun k => (fun x => nextDelay x mult maxWait)^[k] d) ∘ Nat.succ)
          = fun k => (fun x => nextDelay x mult maxWait)^[k] (nextDelay d mult maxWait) :=
        funext fun k => Function.iterate_succ_apply _ k d
      rw [hmap]
      rfl

theorem list_range_map_sum (f : Nat → Nat) (n : Nat) :
    ((List.range n).map f).sum = ∑ k ∈ Finset.range n, f k := by
  induction n with
  | zero => simp
  | succ m ih =>
    rw [List.range_succ, List.map_append, List.sum_append, Finset.sum_range_succ, ih]
    simp

/-- C3: in an all-failures run the sleep delays follow the spec's rule —
start at `initialDelay`, multiplied by `mult` after every failed attempt,
capped at `maxWait` (no jitter) — and the total sleep time is bounded by
`initialDelay * (mult^retries - 1)/(mult - 1)`, each delay after the first
being capped at `maxWait`. -/
theorem retry_backoff_bound (fn : Nat → Option GoError)
    (retries initialDelay mult maxWait : Nat) (hm : 2 ≤ mult)
    (hfail : ∀ j, j < retries → fn j ≠ none) :
    (retry retries initialDelay mult maxWait fn).sleeps
        = (List.range retries).map (specBackoffDelay initialDelay mult maxWait)
    ∧ (∀ k, 1 ≤ k → specBackoffDelay initialDelay mult maxWait k ≤ maxWait)
    ∧ (retry retries initialDelay mult maxWait fn).sleeps.sum
        ≤ initialDelay * ((mult ^ retries - 1) / (mult - 1)) := by
  have hm1 : 1 ≤ mult := by omega
  have hsl : (retry retries initialDelay mult maxWait fn).sleeps
      = (List.range retries).map (specBackoffDelay initialDelay mult maxWait) := by
    have h := retryLoop_all_fail_sleeps fn mult maxWait retries 0 initialDelay
      (fun j hj => by simpa using hfail j hj)
    rw [retry, h]
    have hfun : (fun k => (fun d => nextDelay d mult maxWait)^[k] initialDelay)
        = specBackoffDelay initialDelay mult maxWait :=
      funext (iterate_nextDelay mult maxWait hm1 initialDelay)
    rw [hfun]
  refine ⟨hsl, ?_, ?_⟩
  · intro k hk
    unfold specBackoffDelay
    rw [if_neg (by omega)]
    exact min_le_right _ _
  · rw [hsl]
    have hpt : ∀ k ∈ List.range retries,
        specBackoffDelay initialDelay mult maxWait k ≤ initialDelay * mult ^ k := by
      intro k _
      unfold specBackoffDelay
      cases k with
      | zero => simp
      | succ p => rw [if_neg (Nat.succ_ne_zero p)]; exact min_le_left _ _
    calc ((List.range retries).map (specBackoffDelay initialDelay mult maxWait)).sum
        ≤ ((List.range retries).map (fun k => initialDelay * mult ^ k)).sum :=
          List.sum_le_sum hpt
      _ = ∑ k ∈ Finset.range retries, initialDelay * mult ^ k :=
          list_range_map_sum _ retries
      _ = initialDelay * ∑ k ∈ Finset.range retries, mult ^ k :=
          (Finset.mul_sum _ _ _).symm
      _ = initialDelay * ((mult ^ retries - 1) / (mult - 1)) := by
          rw [Nat.geomSum_eq hm retries]

/-- Attempt function that fails on every invocation. -/
def alwaysFailFn : Nat → Option GoError :=
  fun _ => some (GoError.base "error in fn")

/-- C3 witness: with an always-failing attempt function, `maxAttempts = 3`,
`initialDelay = 1`, multiplier 2 and cap 100, the total sleep time is within
the geometric bound. -/
theorem retry_backoff_bound_witness :
    (retry 3 1 2 100 alwaysFailFn).sleeps.sum ≤ 1 * ((2 ^ 3 - 1) / (2 - 1)) :=
  (retry_backoff_bound alwaysFailFn 3 1 2 100 (by decide) (by decide)).2.2

/-- C4: submitting a preset name that is absent from the registry yields an
error matching `PresetNotFoundError` under error unwrapping, which the HTTP
layer maps to a 404 response with body `preset not found`; a name that is
present never yields this condition (Submit succeeds outright). -/
theorem submit_missing_preset_404 (s : Spark) (name : String)
    (h : lookupPreset s.presets name = none) (hn : name ≠ "") :
    (∃ e, Submit s name = Except.error e ∧ errorIs e PresetNotFoundError = true)
    ∧ HandleSubmit s name = { status := 404, body := "preset not found" }
    ∧ (∀ nm p, lookupPreset s.presets nm = some p →
        ∃ inv, Submit s nm = Except.ok inv) := by
  have hsub : Submit s name
      = Except.error (GoError.wrap "couldn't build submit args" PresetNotFoundError) := by
    simp [Submit, submitArgs, h]
  have hIs : errorIs (GoError.wrap "couldn't build submit args" PresetNotFoundError)
      PresetNotFoundError = true := by decide
  refine ⟨⟨_, hsub, hIs⟩, ?_, ?_⟩
  · simp [HandleSubmit, hn, hsub, hIs]
  · intro nm p hp
    exact ⟨Invocation.mk DispatchMode.async (submitTokens s.master nm p)
      (some (RetryPolicy.mk 10 second 2 (5 * minute))), by simp [Submit, submitArgs, hp]⟩

/-- C4 witness: on the concrete registry `sTest`, which lacks `missing`,
the handler answers 404 with body `preset not found`. -/
theorem submit_missing_preset_404_witness :
    HandleSubmit sTest "missing" = { status := 404, body := "preset not found" } :=
  (submit_missing_preset_404 sTest "missing" rfl (by decide)).2.1

theorem insertPreset_ne_nil (m : List (String × configurationPreset)) (k : String)
    (v : configurationPreset) : insertPreset m k v ≠ [] := by
  cases m with
  | nil => simp [insertPreset]
  | cons hd tl =>
    obtain ⟨k', v'⟩ := hd
    simp only [insertPreset]
    split <;> simp

theorem scanStep_skip (acc : List (String × configurationPreset)) (file : ScanEntry)
    (h : registersPreset file = false) : scanStep acc file = acc := by
  unfold scanStep
  by_cases h1 : file.isDir = true
  · rw [if_pos h1]
  · rw [if_neg h1]
    have hd : file.isDir = false := by revert h1; cases file.isDir <;> simp
    by_cases h2 : file.name.endsWith ".yaml" = true
    · rw [if_neg (by simp [h2])]
      cases hc : file.contents with
      | unreadable => rfl
      | unparsable => rfl
      | parsed p =>
        exfalso
        have hr : registersPreset file = true := by
          unfold registersPreset
          rw [hd, hc, h2]
          rfl
        rw [hr] at h
        cases h
    · rw [if_pos (by simp [h2])]

theorem scanStep_ne_nil (acc : List (String × configurationPreset)) (file : ScanEntry)
    (h : acc ≠ []) : scanStep acc file ≠ [] := by
  unfold scanStep
  by_cases h1 : file.isDir = true
  · rw [if_pos h1]; exact h
  · rw [if_neg h1]
    by_cases h2 : file.name.endsWith ".yaml" = true
    · rw [if_neg (by simp [h2])]
      cases file.contents with
      | unreadable => exact h
      | unparsable => exact h
      | parsed p => exact insertPreset_ne_nil _ _ _
    · rw [if_pos (by simp [h2])]; exact h

theorem scan_foldl_ne_nil :
    ∀ (files : List ScanEntry) (acc : List (String × configurationPreset)),
      acc ≠ [] → files.foldl scanStep acc ≠ [] := by
  intro files
  induction files with
  | nil => intro acc h; simpa using h
  | cons f fs ih =>
    intro acc h
    rw [List.foldl_cons]
    exact ih _ (scanStep_ne_nil acc f h)

theorem scan_foldl_empty :
    ∀ (files : List ScanEntry) (acc : List (String × configurationPreset)),
      files.foldl scanStep acc = [] ↔ acc = [] ∧ ∀ f ∈ files, registersPreset f = false := by
  intro files
  induction files with
  | nil => intro acc; simp
  | cons f fs ih =>
    intro acc
    rw [List.foldl_cons]
    by_cases hr : registersPreset f = true
    · have hne : scanStep acc f ≠ [] := by
        have hr' := hr
        unfold registersPreset at hr'
        simp only [Bool.and_eq_true, Bool.not_eq_true'] at hr'
        obtain ⟨⟨hnd, hends⟩, hm⟩ := hr'
        unfold scanStep
        rw [if_neg (by simp [hnd]), if_neg (by simp [hends])]
        cases hc : f.contents with
        | unreadable => rw [hc] at hm; simp at hm
        | unparsable => rw [hc] at hm; simp at hm
        | parsed p => exact insertPreset_ne_nil _ _ _
      constructor
      · intro hcon
        exact absurd hcon (scan_foldl_ne_nil fs _ hne)
      · rintro ⟨-, hall⟩
        exact absurd (hall f (List.mem_cons_self f fs)) (by simp [hr])
    · have hr' : registersPreset f = false := by revert hr; cases registersPreset f <;> simp
      rw [scanStep_skip acc f hr', ih acc]
      simp [List.forall_mem_cons, hr']

theorem scan_presets_empty (files : List ScanEntry) :
    scanPresets files = [] ↔ ∀ f ∈ files, registersPreset f = false := by
  rw [scanPresets, scan_foldl_empty]
  simp

/-- C7: given that the spark home directory exists (whose separate check is
outside the registry contract), registry construction fails — returning an
error and no registry — exactly when the preset source directory does not
exist, or it exists but cannot be enumerated, or zero presets were
registered after scanning (every directory entry was a subdirectory, lacked
the `.yaml` suffix, was unreadable, or failed to parse). -/
theorem new_error_characterization (sparkHome sparkConfDir master : String) (debug : Bool)
    (fs : FileSystem) (hHome : fs.sparkHomeExists = true) :
    (∃ e, New sparkHome sparkConfDir master debug fs = Except.error e) ↔
      (fs.confDirExists = false
        ∨ (∃ e, fs.dirListing = Except.error e)
        ∨ (∃ files, fs.dirListing = Except.ok files
            ∧ ∀ f ∈ files, registersPreset f = false)) := by
  by_cases hcd : fs.confDirExists = false
  · simp [New, hHome, hcd]
  · have hcd' : fs.confDirExists = true := by revert hcd; cases fs.confDirExists <;> simp
    cases hdl : fs.dirListing with
    | error e => simp [New, hHome, hcd', hdl]
    | ok files =>
      by_cases hemp : scanPresets files = []
      · constructor
        · intro _
          exact Or.inr (Or.inr ⟨files, rfl, (scan_presets_empty files).mp hemp⟩)
        · intro _
          exact ⟨GoError.base
            ("no presets found, please add some presets to the spark configuration preset directory: \""
              ++ sparkConfDir ++ "\""),
            by simp [New, hHome, hcd', hdl, hemp, List.isEmpty_iff]⟩
      · constructor
        · rintro ⟨e, he⟩
          simp [New, hHome, hcd', hdl, List.isEmpty_iff, hemp] at he
        · rintro (h | ⟨e, he⟩ | ⟨files', hf, hall⟩)
          · rw [hcd'] at h; cases h
          · cases he
          · injection hf with hf
            subst hf
            exact absurd ((scan_presets_empty files).mpr hall) hemp

/-- Filesystem in which the spark home exists but the preset directory does
not. -/
def fsNoConfDir : FileSystem :=
  { sparkHomeExists := true, confDirExists := false, dirListing := Except.ok [] }

/-- C7 witness: with an existing spark home and a missing preset directory,
construction fails. -/
theorem new_error_characterization_witness :
    ∃ e, New "/opt/spark" "/conf" "m" false fsNoConfDir = Except.error e :=
  (new_error_characterization "/opt/spark" "/conf" "m" false fsNoConfDir rfl).mpr
    (Or.inl rfl)

/-- C9: for a registered preset `Submit` returns success — the spawned
background invocation (whose outcome cannot influence the already-returned
value) is handed back as data — so the only error `Submit` ever returns
wraps `PresetNotFoundError`, and the handler's generic 500 branch is
unreachable through `Submit`. -/
theorem submit_never_500 (s : Spark) :
    (∀ nm p, lookupPreset s.presets nm = some p →
        Submit s nm = Except.ok (Invocation.mk DispatchMode.async
          (submitTokens s.master nm p) (some (RetryPolicy.mk 10 second 2 (5 * minute)))))
    ∧ (∀ nm e, Submit s nm = Except.error e → errorIs e PresetNotFoundError = true)
    ∧ (∀ q, HandleSubmit s q ≠ { status := 500, body := "error when submitting spark app" }) := by
  have herr : ∀ nm e, Submit s nm = Except.error e →
      e = GoError.wrap "couldn't build submit args" PresetNotFoundError := by
    intro nm e he
    unfold Submit submitArgs at he
    cases hl : lookupPreset s.presets nm with
    | none => rw [hl] at he; simp at he; exact he.symm
    | some p => rw [hl] at he; simp at he
  refine ⟨?_, ?_, ?_⟩
  · intro nm p hp
    simp [Submit, submitArgs, hp]
  · intro nm e he
    rw [herr nm e he]
    decide
  · intro q hcon
    unfold HandleSubmit at hcon
    by_cases hq : q = ""
    · rw [if_pos hq] at hcon
      simp at hcon
    · rw [if_neg hq] at hcon
      cases hsub : Submit s q with
      | ok inv => rw [hsub] at hcon; simp at hcon
      | error e =>
        rw [hsub] at hcon
        have hIs : errorIs e PresetNotFoundError = true := by
          rw [herr q e hsub]; decide
        simp [hIs] at hcon

/-- C9 witness: on the concrete registry, submitting the registered preset
does not reach the generic 500 branch. -/
theorem submit_never_500_witness :
    HandleSubmit sTest "mypreset"
      ≠ { status := 500, body := "error when submitting spark app" } :=
  (submit_never_500 sTest).2.2 "mypreset"

end SparkSubmit
